import Mathlib

/-!
Verification of the dealer-feasibility projection engine
(`src/calculations/financial.py` and `src/calculations/sales.py`).

Numbers are modelled by `ℚ` (the Python code computes with floats; the
claims under check are exact algebraic statements, so the idealised
rational semantics is the intended reading).  Python dictionaries keyed
by year are modelled either as association lists `List (ℕ × ℚ)` (sparse
schedules) or as functions `ℕ → ℚ` carrying the `dict.get(year, 0)`
semantics.  The external root finder `np.irr` is an opaque collaborator
and is modelled as a parameter `npIrr : List ℚ → Option ℚ` returning the
solver's finite root, or `none` for a NaN/infinite/failed solve.
-/

namespace DFProto

/-- Model of Python `round(x, 2)`: scale by 100, round half to even,
scale back.  (CPython rounds half to even; on exact rationals this is
the idealised decimal behaviour of `round`.) -/
def roundHalfEven (y : ℚ) : ℤ :=
  if y - ⌊y⌋ < 1/2 then ⌊y⌋
  else if 1/2 < y - ⌊y⌋ then ⌊y⌋ + 1
  else if ⌊y⌋ % 2 = 0 then ⌊y⌋ else ⌊y⌋ + 1

/-- Python `round(x, 2)` on our rational model. -/
def round2 (x : ℚ) : ℚ := (roundHalfEven (x * 100) : ℚ) / 100

/-- Running term-by-term sum `Σ cf[t] / (1+r)^t` of
`FinancialCalculator.calculate_npv`, with `t` the index of the first
element of the remaining list.  Divergence from the source at the
degenerate rate `r = -1`: for `t ≥ 1` Python raises a
`ZeroDivisionError` (uncaught, so no result is returned), while this
total rational model yields 0 for those terms; theorems that assert a
produced result therefore assume `r ≠ -1`. -/
def npvTerms : List ℚ → ℚ → ℕ → ℚ
  | [], _, _ => 0
  | cf :: rest, r, t => cf / (1 + r) ^ t + npvTerms rest r (t + 1)

/-- Embedding of `FinancialCalculator.calculate_npv` (financial.py
lines 11-26): discounted sum, rounded to two decimals. -/
def calculate_npv (cash_flows : List ℚ) (discount_rate : ℚ) : ℚ :=
  round2 (npvTerms cash_flows discount_rate 0)

/-- Embedding of `FinancialCalculator.calculate_irr` (financial.py
lines 28-56).  `npIrr` stands for the borrowed `np.irr` solver: `none`
models a NaN/inf result or a raised exception.  The guard requires at
least one strictly negative and one strictly positive cash flow. -/
def calculate_irr (npIrr : List ℚ → Option ℚ) (cash_flows : List ℚ) :
    Option ℚ :=
  if (∃ cf ∈ cash_flows, cf < 0) ∧ (∃ cf ∈ cash_flows, 0 < cf) then
    match npIrr cash_flows with
    | some irr => some (round2 (irr * 100))
    | none => none
  else none

/-- Loop of `FinancialCalculator.calculate_payback_period`
(financial.py lines 59-78): `cum` is the cumulative sum of the already
consumed prefix and `i` its length. -/
def paybackGo : List ℚ → ℚ → ℕ → Option ℚ
  | [], _, _ => none
  | cf :: rest, cum, i =>
    if 0 ≤ cum + cf then
      if 0 < i ∧ cf ≠ 0 then
        some (round2 ((i : ℚ) - 1 + (0 - (cum + cf - cf)) / cf))
      else some (i : ℚ)
    else paybackGo rest (cum + cf) (i + 1)

/-- Embedding of `FinancialCalculator.calculate_payback_period`:
first index whose running cumulative sum is `≥ 0`, with a fractional
year interpolated inside that year, rounded to two decimals; `none`
when the cumulative sum never recovers. -/
def calculate_payback_period (cash_flows : List ℚ) : Option ℚ :=
  paybackGo cash_flows 0 0

/-- Discounted cash-flow list `[cf / (1+r)^t for t, cf in enumerate(...)]`
of `calculate_metrics`, with `t` the index of the head. -/
def discountedFrom : List ℚ → ℚ → ℕ → List ℚ
  | [], _, _ => []
  | cf :: rest, r, t => cf / (1 + r) ^ t :: discountedFrom rest r (t + 1)

/-- Cumulative (undiscounted) cash-flow list of `calculate_metrics`. -/
def cumulativeFrom : List ℚ → ℚ → List ℚ
  | [], _ => []
  | cf :: rest, acc => (acc + cf) :: cumulativeFrom rest (acc + cf)

/-- Cumulative undiscounted cash flow at index `k`: the sum of entries
`0..k` of the vector (the value the payback loop inspects at step `k`). -/
def cumAt (cash_flows : List ℚ) (k : ℕ) : ℚ :=
  (cash_flows.take (k + 1)).sum

/-- Terminal value of the positive flows in `calculate_metrics`
(financial.py lines 185-189): each `cf > 0` at index `t` is compounded
by `(1+rr)^(n-1-t)` where `n` is the full vector length. -/
def terminalValue : List ℚ → ℚ → ℕ → ℕ → ℚ
  | [], _, _, _ => 0
  | cf :: rest, rr, n, t =>
    (if 0 < cf then cf * (1 + rr) ^ (n - 1 - t) else 0)
      + terminalValue rest rr n (t + 1)

/-- Present value of the magnitudes of the negative flows in
`calculate_metrics` (financial.py lines 191-195). -/
def pvNegative : List ℚ → ℚ → ℕ → ℚ
  | [], _, _ => 0
  | cf :: rest, dr, t =>
    (if cf < 0 then |cf| / (1 + dr) ^ t else 0) + pvNegative rest dr (t + 1)

/-- MIRR block of `FinancialCalculator.calculate_metrics` (financial.py
lines 172-203).  The reinvestment rate defaults to the discount rate.
The final root `** (1 / (len - 1))` is a real power, hence the value
lives in `ℝ`.  The Python `try`/`except` path is represented by the
guards: on every input where the guards pass, the Python code raises no
exception (shown in the theorems below). -/
noncomputable def mirrCalc (cash_flows : List ℚ) (discount_rate : ℚ)
    (reinvestment_rate : Option ℚ) : ℝ :=
  let rr := reinvestment_rate.getD discount_rate
  let n := cash_flows.length
  let sumPos := (cash_flows.map (fun cf => max 0 cf)).sum
  let sumNeg := (cash_flows.map (fun cf => min 0 cf)).sum
  if sumPos = 0 ∨ sumNeg = 0 then 0
  else
    let tv := terminalValue cash_flows rr n 0
    let pv := pvNegative cash_flows discount_rate 0
    if 0 < tv ∧ 0 < pv then
      Real.rpow ((tv : ℝ) / (pv : ℝ)) (((n : ℝ) - 1)⁻¹) - 1
    else 0

/-- Result tuple of `FinancialCalculator.calculate_metrics`
(financial.py lines 137-205). -/
structure MetricsOut where
  npv : ℚ
  irr : ℚ
  payback : ℚ
  discounted : List ℚ
  cumulative : List ℚ
  mirr : ℝ

/-- Embedding of `FinancialCalculator.calculate_metrics`: note that an
IRR of `none` is replaced by the number `0` (line 155) and a payback of
`none` by `len(cash_flows)` (lines 159-160). -/
noncomputable def calculate_metrics (npIrr : List ℚ → Option ℚ)
    (cash_flows : List ℚ) (discount_rate : ℚ)
    (reinvestment_rate : Option ℚ) : MetricsOut where
  npv := calculate_npv cash_flows discount_rate
  irr :=
    match calculate_irr npIrr cash_flows with
    | some v => v / 100
    | none => 0
  payback :=
    match calculate_payback_period cash_flows with
    | some p => p
    | none => (cash_flows.length : ℚ)
  discounted := discountedFrom cash_flows discount_rate 0
  cumulative := cumulativeFrom cash_flows 0
  mirr := mirrCalc cash_flows discount_rate reinvestment_rate

/-! ## Sales engine (`src/calculations/sales.py`) -/

/-- Product set of the engine (the four dict keys used throughout
sales.py). -/
inductive Product where
  | pmg
  | hsd
  | hobc
  | lube
deriving DecidableEq

/-- Value of a key in a sparse schedule association list (the first
binding wins, matching unique dict keys). -/
def lookupY (sched : List (ℕ × ℚ)) (y : ℕ) : Option ℚ :=
  (sched.find? (fun p => p.1 = y)).map (fun p => p.2)

/-- Schedule keys that do not exceed the horizon: the `defined_years`
comprehension of sales.py lines 534 and 606. -/
def keysLE (sched : List (ℕ × ℚ)) (years : ℕ) : List ℕ :=
  (sched.map (fun p => p.1)).filter (fun k => k ≤ years)

/-- Empty-schedule replacement of sales.py lines 536-539 / 608-611: if
no key is within the horizon the whole schedule is replaced by
`{1: dflt}` (`dflt` is 0.05 for growth rates, 5.0 for margins). -/
def normalizeSched (sched : List (ℕ × ℚ)) (years : ℕ) (dflt : ℚ) :
    List (ℕ × ℚ) :=
  if keysLE sched years = [] then [(1, dflt)] else sched

/-- Interpolation block shared by `calculate_product_sales` (lines
541-566) and `calculate_product_revenue` (lines 613-638): a direct key
is used verbatim; otherwise the nearest defined keys (within the
horizon) below and above are found; with both present the value is
linearly interpolated, with only one side present the nearest defined
key's value is used flat.  When no key is within the horizon the code
never reaches this block (see `normalizeSched`); the fallback value 0
below is unreachable in the composed pipeline. -/
def densify (sched : List (ℕ × ℚ)) (years : ℕ) (y : ℕ) : ℚ :=
  match lookupY sched y with
  | some v => v
  | none =>
    let ks := keysLE sched years
    match (ks.filter (fun k => k < y)).max?,
        (ks.filter (fun k => y < k)).min? with
    | none, _ =>
      match ks.min? with
      | some k0 => (lookupY sched k0).getD 0
      | none => 0
    | some _, none =>
      match ks.max? with
      | some kl => (lookupY sched kl).getD 0
      | none => 0
    | some l, some u =>
      let lv := (lookupY sched l).getD 0
      let uv := (lookupY sched u).getD 0
      lv + (uv - lv) * ((y : ℚ) - (l : ℚ)) / ((u : ℚ) - (l : ℚ))

/-- Compounding loop of `calculate_product_sales` lines 568-575:
year 0 is the annual base, year `y` multiplies the previous year by
`1 + growth[y]`. -/
def salesRec (annual_base : ℚ) (g : ℕ → ℚ) : ℕ → ℚ
  | 0 => annual_base
  | y + 1 => salesRec annual_base g y * (1 + g (y + 1))

/-- Embedding of `SalesCalculator.calculate_product_sales` (sales.py
lines 507-577) on a dict-shaped schedule: the returned function carries
the `yearly_sales.get(year, 0)` semantics (keys `0..years`, default 0
outside). -/
def calculate_product_sales (base_sales : ℚ) (growth_rates : List (ℕ × ℚ))
    (years : ℕ) : ℕ → ℚ :=
  let g := fun y => densify (normalizeSched growth_rates years (1/20)) years y
  fun y => if y ≤ years then salesRec (base_sales * 365) g y else 0

/-- Embedding of `SalesCalculator.calculate_product_revenue` (sales.py
lines 579-653) on a dict-shaped margin schedule.  Year 0 uses the first
year's densified margin with no inflation (`all_margins.get(1, 5.0)`,
which is the default 5 only when the horizon is 0); year `y ≥ 1` uses
`margin[y] * (1 + inflation) ^ (y - 1)`. -/
def calculate_product_revenue (sales_volumes : ℕ → ℚ)
    (margins : List (ℕ × ℚ)) (years : ℕ) (inflation_rate : ℚ) :
    ℕ → ℚ :=
  let m := fun y => densify (normalizeSched margins years 5) years y
  fun year =>
    if year = 0 then
      sales_volumes 0 * (if years = 0 then 5 else m 1)
    else
      sales_volumes year * (m year * (1 + inflation_rate) ^ (year - 1))

/-! ## Scenario and dealer records (`src/models`) and the
normalization phase of `run_scenario` (sales.py lines 343-367) -/

/-- Shape of one entry of `scenario.default_growth_rates` /
`default_margins` before normalization: a proper year-to-value dict, a
bare numeric scalar, or a value `float()` cannot convert. -/
inductive SchedField where
  | table (t : List (ℕ × ℚ))
  | scalar (q : ℚ)
  | junk
deriving DecidableEq

/-- Shape of `scenario.analysis_years` before normalization: an
integer, or any non-`int` value (which `run_scenario` resets to 15). -/
inductive YearsField where
  | intVal (n : ℤ)
  | nonInt
deriving DecidableEq

/-- Raw `Scenario` object as `run_scenario` receives it.  The product
maps model the Python dicts: `none` means the product key is missing. -/
structure ScenarioIn where
  discount_rate : ℚ
  inflation_rate : ℚ
  tax_rate : ℚ
  analysis_years : YearsField
  default_growth_rates : Product → Option SchedField
  default_margins : Product → Option SchedField
  signage_maintenance : ℚ
  signage_maintenance_year : ℕ
  other_maintenance : ℚ
  other_maintenance_year : ℤ
  insurance_property_rate : Option ℚ

/-- Default margin table values of sales.py lines 360 and 366. -/
def defaultMargin : Product → ℚ
  | Product.pmg => 5
  | Product.hsd => 4
  | Product.hobc => 6
  | Product.lube => 100

/-- Normalization of one growth-rate entry (sales.py lines 351-357):
missing or junk entries become `{1: 0.05}`, scalars become
`{1: scalar}`, dicts are kept. -/
def normalizeGrowthField : Option SchedField → Option SchedField
  | none => some (SchedField.table [(1, 1/20)])
  | some (SchedField.table t) => some (SchedField.table t)
  | some (SchedField.scalar q) => some (SchedField.table [(1, q)])
  | some SchedField.junk => some (SchedField.table [(1, 1/20)])

/-- Normalization of one margin entry (sales.py lines 359-367). -/
def normalizeMarginField (p : Product) : Option SchedField → Option SchedField
  | none => some (SchedField.table [(1, defaultMargin p)])
  | some (SchedField.table t) => some (SchedField.table t)
  | some (SchedField.scalar q) => some (SchedField.table [(1, q)])
  | some SchedField.junk => some (SchedField.table [(1, defaultMargin p)])

/-- State of the scenario object after the in-place writes of
`run_scenario` lines 344-367 (`scenario.analysis_years = 15`,
`scenario.default_growth_rates[product] = ...`,
`scenario.default_margins[product] = ...`). -/
def normalizeScenarioState (s : ScenarioIn) : ScenarioIn :=
  { s with
    analysis_years :=
      match s.analysis_years with
      | YearsField.intVal n => YearsField.intVal n
      | YearsField.nonInt => YearsField.intVal 15
    default_growth_rates := fun p => normalizeGrowthField (s.default_growth_rates p)
    default_margins := fun p => normalizeMarginField p (s.default_margins p) }

/-- Scenario record once normalization has run: every schedule is a
plain table and the horizon is an integer. -/
structure Scenario where
  discount_rate : ℚ
  inflation_rate : ℚ
  tax_rate : ℚ
  analysis_years : ℤ
  growth : Product → List (ℕ × ℚ)
  margins : Product → List (ℕ × ℚ)
  signage_maintenance : ℚ
  signage_maintenance_year : ℕ
  other_maintenance : ℚ
  other_maintenance_year : ℤ
  insurance_property_rate : Option ℚ

/-- Number of projected years as used by the `range` loops of
`run_scenario` (an integer horizon `≤ 0` yields empty loops). -/
def Scenario.yearsNat (s : Scenario) : ℕ := s.analysis_years.toNat

/-- Reading of the normalized scenario object into the `Scenario`
record.  The fallback arms are unreachable on the output of
`normalizeScenarioState`. -/
def extractScenario (s : ScenarioIn) : Scenario where
  discount_rate := s.discount_rate
  inflation_rate := s.inflation_rate
  tax_rate := s.tax_rate
  analysis_years :=
    match s.analysis_years with
    | YearsField.intVal n => n
    | YearsField.nonInt => 15
  growth := fun p =>
    match s.default_growth_rates p with
    | some (SchedField.table t) => t
    | _ => [(1, 1/20)]
  margins := fun p =>
    match s.default_margins p with
    | some (SchedField.table t) => t
    | _ => [(1, defaultMargin p)]
  signage_maintenance := s.signage_maintenance
  signage_maintenance_year := s.signage_maintenance_year
  other_maintenance := s.other_maintenance
  other_maintenance_year := s.other_maintenance_year
  insurance_property_rate := s.insurance_property_rate

/-- Rental income stream entry of `dealer.rental_streams` as consumed
by `run_scenario` lines 434-442. -/
structure RentalStream where
  start_year : ℕ
  end_year : ℕ
  monthly_rent : ℚ

/-- Dealer record (`src/models/dealer.py`), restricted to the fields
`run_scenario` reads. -/
structure DealerOutlet where
  pmg_sales : ℚ
  hsd_sales : ℚ
  hobc_sales : ℚ
  lube_sales : ℚ
  initial_investment : ℚ
  operating_costs : ℚ
  rental_streams : List RentalStream

/-- Base daily volume of a product. -/
def DealerOutlet.baseSales (d : DealerOutlet) : Product → ℚ
  | Product.pmg => d.pmg_sales
  | Product.hsd => d.hsd_sales
  | Product.hobc => d.hobc_sales
  | Product.lube => d.lube_sales

/-! ## Series built by `run_scenario` (sales.py lines 369-463) -/

/-- Inflation factor `(1 + inflation_rate) ** (year - 1)` with Python
integer arithmetic in the exponent (for `year = 0` the exponent is
`-1`).  Divergence from the source at the degenerate rate
`infl = -1` combined with `year = 0` (reachable only via
`other_maintenance_year = 0` or a rental stream starting at year 0):
Python's `0.0 ** -1` raises a `ZeroDivisionError` (uncaught), while
`(0 : ℚ) ^ (-1 : ℤ) = 0` here; theorems that assert a produced result
therefore assume `infl ≠ -1`. -/
def inflationFactor (infl : ℚ) (y : ℕ) : ℚ := (1 + infl) ^ ((y : ℤ) - 1)

/-- Per-product sales dict of the run (lines 372-375; the `.get`
fallbacks on the scenario dicts are dead after normalization, which
guarantees every product key is present). -/
def salesSeries (d : DealerOutlet) (s : Scenario) (p : Product) : ℕ → ℚ :=
  calculate_product_sales (d.baseSales p) (s.growth p) s.yearsNat

/-- Per-product revenue dict of the run (lines 378-381). -/
def revenueSeries (d : DealerOutlet) (s : Scenario) (p : Product) : ℕ → ℚ :=
  calculate_product_revenue (salesSeries d s p) (s.margins p) s.yearsNat
    s.inflation_rate

/-- Total revenue per year (lines 384-391). -/
def totalRevenueSeries (d : DealerOutlet) (s : Scenario) (y : ℕ) : ℚ :=
  revenueSeries d s Product.pmg y + revenueSeries d s Product.hsd y +
    revenueSeries d s Product.hobc y + revenueSeries d s Product.lube y

/-- Operating-cost series (lines 393-401): zero in year 0, otherwise
the monthly cost times 12, inflation-indexed. -/
def operatingCostSeries (d : DealerOutlet) (s : Scenario) (y : ℕ) : ℚ :=
  if y = 0 then 0
  else d.operating_costs * 12 * inflationFactor s.inflation_rate y

/-- Maintenance series (lines 403-416): signage maintenance on every
multiple of `signage_maintenance_year` within the horizon, other
maintenance in its single year; both inflation-indexed, additively.
Divergence from the source at the degenerate period
`signage_maintenance_year = 0` with horizon ≥ 1: Python's `year % 0`
raises a `ZeroDivisionError` at year 1 (uncaught, so no result is
returned), while Lean's `y % 0 = y` makes the signage condition false
and contributes nothing; theorems that assert a produced result
therefore assume a nonzero period. -/
def maintenanceSeries (s : Scenario) (y : ℕ) : ℚ :=
  (if 0 < y ∧ y % s.signage_maintenance_year = 0 ∧ y ≤ s.yearsNat then
      s.signage_maintenance * inflationFactor s.inflation_rate y
    else 0)
  + (if (y : ℤ) = s.other_maintenance_year then
      s.other_maintenance * inflationFactor s.inflation_rate y
    else 0)

/-- Insurance series (lines 418-426): zero in year 0, otherwise the
initial investment times the property insurance rate (default 1%),
inflation-indexed. -/
def insuranceSeries (d : DealerOutlet) (s : Scenario) (y : ℕ) : ℚ :=
  if y = 0 then 0
  else d.initial_investment * (s.insurance_property_rate.getD (1/100)) *
    inflationFactor s.inflation_rate y

/-- Rental-income series (lines 428-442): every stream active in year
`y` contributes its monthly rent times 12, inflation-indexed. -/
def rentalIncomeSeries (d : DealerOutlet) (s : Scenario) (y : ℕ) : ℚ :=
  (d.rental_streams.map (fun st =>
    if st.start_year ≤ y ∧ y ≤ st.end_year then
      st.monthly_rent * 12 * inflationFactor s.inflation_rate y
    else 0)).sum

/-- Pre-tax cash flow of a year (sales.py lines 452-456): total revenue
minus operating cost, maintenance and insurance, plus rental income. -/
def pretaxAt (d : DealerOutlet) (s : Scenario) (y : ℕ) : ℚ :=
  totalRevenueSeries d s y - operatingCostSeries d s y -
    maintenanceSeries s y - insuranceSeries d s y + rentalIncomeSeries d s y

/-- Net cash flow of a year `y ≥ 1` (lines 450-463): the pre-tax flow,
minus the tax on its positive part (losses are not tax-credited). -/
def netCashFlowAt (d : DealerOutlet) (s : Scenario) (y : ℕ) : ℚ :=
  pretaxAt d s y - max 0 (pretaxAt d s y) * s.tax_rate

/-- Assembled cash-flow vector (lines 444-463): index 0 is the negated
initial investment, then one net cash flow per year `1..years`. -/
def cashFlowsOf (d : DealerOutlet) (s : Scenario) : List ℚ :=
  -d.initial_investment ::
    (List.range s.yearsNat).map (fun k => netCashFlowAt d s (k + 1))

/-- Projection result record returned by `run_scenario` (sales.py
lines 488-499; the `yearly_data` sub-dict is the series defined above
and is not duplicated here). -/
structure Results where
  npv : ℚ
  irr : ℚ
  payback_period : ℚ
  mirr : ℝ
  cash_flows : List ℚ
  discounted_cash_flows : List ℚ
  cumulative_cash_flows : List ℚ
  initial_investment : ℚ
  years : ℤ

/-- Projection pipeline of `run_scenario` after normalization (sales.py
lines 369-499). -/
noncomputable def runScenarioCore (npIrr : List ℚ → Option ℚ)
    (d : DealerOutlet) (s : Scenario) : Results :=
  let cfs := cashFlowsOf d s
  let m := calculate_metrics npIrr cfs s.discount_rate none
  { npv := m.npv
    irr := m.irr
    payback_period := m.payback
    mirr := m.mirr
    cash_flows := cfs
    discounted_cash_flows := m.discounted
    cumulative_cash_flows := m.cumulative
    initial_investment := d.initial_investment
    years := s.analysis_years }

/-- Embedding of `SalesCalculator.run_scenario` (sales.py lines
328-505): the in-place normalization phase followed by the projection
pipeline.  The source performs no input validation and has no error
return of its own; it can still die on a `ZeroDivisionError` from
degenerate numeric parameters (a zero signage period with horizon ≥ 1,
or a rate of exactly −100%, see `maintenanceSeries`, `npvTerms` and
`inflationFactor`), which this total model does not represent —
theorems asserting that a result is produced carry hypotheses
excluding those parameters. -/
noncomputable def run_scenario (npIrr : List ℚ → Option ℚ)
    (d : DealerOutlet) (s : ScenarioIn) : Results :=
  runScenarioCore npIrr d (extractScenario (normalizeScenarioState s))

/-! ## Spec-side definitions (refinement comparisons for the MIRR
claim, written from the specification's words) -/

/-- Terminal value as the spec words it: every NON-NEGATIVE entry is
compounded forward to the final year at the reinvestment rate (the
source sums over strictly positive entries only; zero entries
contribute nothing either way). -/
def specTerminalValue : List ℚ → ℚ → ℕ → ℕ → ℚ
  | [], _, _, _ => 0
  | cf :: rest, rr, n, t =>
    (if 0 ≤ cf then cf * (1 + rr) ^ (n - 1 - t) else 0)
      + specTerminalValue rest rr n (t + 1)

/-- Present value of the magnitudes of the NON-POSITIVE entries as the
spec words it (the source sums over strictly negative entries only). -/
def specPresentValue : List ℚ → ℚ → ℕ → ℚ
  | [], _, _ => 0
  | cf :: rest, dr, t =>
    (if cf ≤ 0 then |cf| / (1 + dr) ^ t else 0) + specPresentValue rest dr (t + 1)

/-! ## Concrete inputs used by counterexamples and witnesses -/

/-- External IRR solver that always fails (any fixed solver would do:
the theorems below never depend on the solver's answer). -/
def npIrrNone : List ℚ → Option ℚ := fun _ => none

/-- Dealer with all-zero volumes, investment and costs. -/
def dealerZero : DealerOutlet where
  pmg_sales := 0
  hsd_sales := 0
  hobc_sales := 0
  lube_sales := 0
  initial_investment := 0
  operating_costs := 0
  rental_streams := []

/-- Dealer with a unit investment and nothing else. -/
def dealerOne : DealerOutlet := { dealerZero with initial_investment := 1 }

/-- Dealer with a negative base volume and a negative initial
investment (invalid per claim C2). -/
def dealerNeg : DealerOutlet :=
  { dealerZero with pmg_sales := -1, initial_investment := -5 }

/-- Raw scenario whose integer horizon is 0 (smaller than 1), otherwise
well-shaped. -/
def rawScenarioZero : ScenarioIn where
  discount_rate := 1/10
  inflation_rate := 0
  tax_rate := 0
  analysis_years := YearsField.intVal 0
  default_growth_rates := fun _ => some (SchedField.table [(1, 1/20)])
  default_margins := fun _ => some (SchedField.table [(1, 5)])
  signage_maintenance := 0
  signage_maintenance_year := 7
  other_maintenance := 0
  other_maintenance_year := 11
  insurance_property_rate := none

/-- Raw scenario whose PMG growth entry is a bare scalar. -/
def rawScenarioScalarGrowth : ScenarioIn :=
  { rawScenarioZero with
    analysis_years := YearsField.intVal 15
    default_growth_rates := fun p =>
      match p with
      | Product.pmg => some (SchedField.scalar (7/100))
      | _ => some (SchedField.table [(1, 1/20)]) }

/-- Raw scenario whose margin dict has no entry for the lubricant
product. -/
def rawScenarioMissingMargin : ScenarioIn :=
  { rawScenarioZero with
    analysis_years := YearsField.intVal 15
    default_margins := fun p =>
      match p with
      | Product.lube => none
      | _ => some (SchedField.table [(1, 5)]) }

/-- Raw scenario whose `analysis_years` is not an integer. -/
def rawScenarioNonIntYears : ScenarioIn :=
  { rawScenarioZero with analysis_years := YearsField.nonInt }

/-- Normalized scenario with horizon 0. -/
def scenarioZero : Scenario where
  discount_rate := 1/10
  inflation_rate := 0
  tax_rate := 0
  analysis_years := 0
  growth := fun _ => [(1, 1/20)]
  margins := fun _ => [(1, 5)]
  signage_maintenance := 0
  signage_maintenance_year := 7
  other_maintenance := 0
  other_maintenance_year := 11
  insurance_property_rate := none

/-- Normalized scenario with horizon 1. -/
def scenarioOne : Scenario := { scenarioZero with analysis_years := 1 }

/-! ## Helper lemmas -/

lemma roundHalfEven_ge (y : ℚ) : y - 1/2 ≤ (roundHalfEven y : ℚ) := by
  have h1 : (⌊y⌋ : ℚ) ≤ y := Int.floor_le y
  have h2 : y < (⌊y⌋ : ℚ) + 1 := Int.lt_floor_add_one y
  unfold roundHalfEven
  split_ifs with c1 c2 c3 <;> push_cast <;> linarith

lemma roundHalfEven_le (y : ℚ) : (roundHalfEven y : ℚ) ≤ y + 1/2 := by
  have h1 : (⌊y⌋ : ℚ) ≤ y := Int.floor_le y
  have h2 : y < (⌊y⌋ : ℚ) + 1 := Int.lt_floor_add_one y
  unfold roundHalfEven
  split_ifs with c1 c2 c3 <;> push_cast <;>
    simp only [not_lt] at * <;> linarith

lemma round2_ge (x : ℚ) : x - 1/200 ≤ round2 x := by
  have := roundHalfEven_ge (x * 100)
  unfold round2
  linarith

lemma round2_le (x : ℚ) : round2 x ≤ x + 1/200 := by
  have := roundHalfEven_le (x * 100)
  unfold round2
  linarith

lemma round2_eq_int_div (x : ℚ) :
    round2 x = (roundHalfEven (x * 100) : ℚ) / 100 := rfl

lemma npvTerms_zero_rate (cfs : List ℚ) : ∀ t, npvTerms cfs 0 t = cfs.sum := by
  induction cfs with
  | nil => intro t; simp [npvTerms]
  | cons cf rest ih => intro t; simp [npvTerms, ih]

/-! ## Claim C8 — NPV at discount rate zero -/

/-- Claim C8, counterexample.  The claim states that NPV at discount
rate 0 equals the plain sum of the entries.  `calculate_npv` rounds its
result to two decimals (financial.py line 26), so for the one-entry
vector `[0.001]` it returns `0` while the plain sum is `0.001`. -/
theorem npv_zero_rate_rounding_counterexample :
    calculate_npv [1/1000] 0 = 0 ∧ ([1/1000] : List ℚ).sum = 1/1000 ∧
      calculate_npv [1/1000] 0 ≠ ([1/1000] : List ℚ).sum := by
  refine ⟨?_, by norm_num, ?_⟩ <;>
    norm_num [calculate_npv, npvTerms, round2, roundHalfEven]

/-- Claim C8, amended: for every cash-flow vector, the NPV computed at
discount rate 0 equals the plain undiscounted sum of the entries
rounded to two decimals (the implementation rounds every NPV result). -/
theorem npv_zero_rate_eq_rounded_sum (cfs : List ℚ) :
    calculate_npv cfs 0 = round2 cfs.sum := by
  unfold calculate_npv
  rw [npvTerms_zero_rate]

/-! ## Claim C5 — sparse-schedule densification -/

lemma lookupY_eq_none_iff (sched : List (ℕ × ℚ)) (y : ℕ) :
    lookupY sched y = none ↔ ∀ p ∈ sched, p.1 ≠ y := by
  simp [lookupY, List.find?_eq_none]

lemma mem_keysLE (sched : List (ℕ × ℚ)) (years k : ℕ) :
    k ∈ keysLE sched years ↔ (∃ p ∈ sched, p.1 = k) ∧ k ≤ years := by
  simp [keysLE]

/-- Claim C5: for a year inside the horizon that is not a schedule key,
`densify` linearly interpolates between the nearest defined keys
(restricted to the horizon) when both sides exist, extrapolates flat
from the single nearest defined key otherwise, and consequently a
schedule with exactly one key (within the horizon) is constant over
`1..H`. -/
theorem densify_interpolation (sched : List (ℕ × ℚ)) (H y : ℕ)
    (hy1 : 1 ≤ y) (hyH : y ≤ H) (hnk : lookupY sched y = none) :
    (∀ l u vl vu,
        ((keysLE sched H).filter (fun k => k < y)).max? = some l →
        ((keysLE sched H).filter (fun k => y < k)).min? = some u →
        lookupY sched l = some vl → lookupY sched u = some vu →
        densify sched H y =
          vl + (vu - vl) * ((y : ℚ) - (l : ℚ)) / ((u : ℚ) - (l : ℚ)))
    ∧ (∀ u vu,
        ((keysLE sched H).filter (fun k => k < y)).max? = none →
        ((keysLE sched H).filter (fun k => y < k)).min? = some u →
        lookupY sched u = some vu →
        densify sched H y = vu)
    ∧ (∀ l vl,
        ((keysLE sched H).filter (fun k => k < y)).max? = some l →
        ((keysLE sched H).filter (fun k => y < k)).min? = none →
        lookupY sched l = some vl →
        densify sched H y = vl)
    ∧ (∀ (k : ℕ) (v : ℚ), k ≤ H → ∀ z, 1 ≤ z → z ≤ H →
        densify [(k, v)] H z = v) := by
  have hkey : ∀ k ∈ keysLE sched H, k ≠ y := by
    intro k hk
    rcases (mem_keysLE sched H k).1 hk with ⟨⟨p, hp, hpk⟩, -⟩
    exact hpk ▸ (lookupY_eq_none_iff sched y).1 hnk p hp
  refine ⟨?_, ?_, ?_, ?_⟩
  · intro l u vl vu hmax hmin hl hu
    simp only [densify, hnk, hmax, hmin, hl, hu, Option.getD_some]
  · intro u vu hmax hmin hu
    have hfe : (keysLE sched H).filter (fun k => k < y) = [] := by
      simpa using hmax
    have hall : ∀ k ∈ keysLE sched H, y < k := by
      intro k hk
      have h1 : ¬ k < y := by
        intro hlt
        have : k ∈ (keysLE sched H).filter (fun k => k < y) :=
          List.mem_filter.2 ⟨hk, by simpa using hlt⟩
        rw [hfe] at this
        exact absurd this (List.not_mem_nil k)
      have h2 := hkey k hk
      omega
    have hfu : (keysLE sched H).filter (fun k => y < k) = keysLE sched H :=
      List.filter_eq_self.2 (fun k hk => by simpa using hall k hk)
    rw [hfu] at hmin
    simp only [densify, hnk, hmax, hmin, hu, Option.getD_some]
  · intro l vl hmax hmin hl
    have hfe : (keysLE sched H).filter (fun k => y < k) = [] := by
      simpa using hmin
    have hall : ∀ k ∈ keysLE sched H, k < y := by
      intro k hk
      have h1 : ¬ y < k := by
        intro hlt
        have : k ∈ (keysLE sched H).filter (fun k => y < k) :=
          List.mem_filter.2 ⟨hk, by simpa using hlt⟩
        rw [hfe] at this
        exact absurd this (List.not_mem_nil k)
      have h2 := hkey k hk
      omega
    have hfl : (keysLE sched H).filter (fun k => k < y) = keysLE sched H :=
      List.filter_eq_self.2 (fun k hk => by simpa using hall k hk)
    have hmax2 : (keysLE sched H).max? = some l := hfl ▸ hmax
    simp only [densify, hnk, hfl, hmax2, hmin, hl, Option.getD_some]
  · intro k v hkH z hz1 hzH
    by_cases hzk : z = k
    · subst hzk
      simp [densify, lookupY]
    · have hlk : lookupY [(k, v)] z = none := by
        simp [lookupY, List.find?, Ne.symm hzk]
      have hks : keysLE [(k, v)] H = [k] := by
        simp [keysLE, hkH]
      have hmax1 : [k].max? = some k := rfl
      have hmin1 : [k].min? = some k := rfl
      have hlkk : lookupY [(k, v)] k = some v := by
        simp [lookupY, List.find?]
      rcases Nat.lt_or_ge z k with hlt | hge
      · have hnlt : ¬ k < z := by omega
        have h1 : ([k].filter (fun j => j < z)) = [] := by
          simp [List.filter, hnlt]
        have h2 : ([k].filter (fun j => z < j)) = [k] := by
          simp [List.filter, hlt]
        simp only [densify, hlk, hks, h1, h2, hmax1, hmin1, hlkk,
          Option.getD_some, List.max?_nil, List.min?_nil]
      · have hklt : k < z := by omega
        have hnlt : ¬ z < k := by omega
        have h1 : ([k].filter (fun j => j < z)) = [k] := by
          simp [List.filter, hklt]
        have h2 : ([k].filter (fun j => z < j)) = [] := by
          simp [List.filter, hnlt]
        simp only [densify, hlk, hks, h1, h2, hmax1, hmin1, hlkk,
          Option.getD_some, List.max?_nil, List.min?_nil]

/-- Claim C5, witness: the schedule `{1: 10, 5: 30}` with horizon 6 at
year 3 interpolates to 20. -/
theorem densify_interpolation_witness :
    lookupY [(1, 10), (5, 30)] 3 = none ∧
    densify [(1, 10), (5, 30)] 6 3 =
      10 + (30 - 10) * ((3 : ℚ) - (1 : ℕ)) / ((5 : ℕ) - (1 : ℕ)) ∧
    densify [(1, 10), (5, 30)] 6 3 = 20 := by
  have hnk : lookupY [(1, 10), (5, 30)] 3 = none := by
    norm_num [lookupY, List.find?]
  have h := (densify_interpolation [(1, 10), (5, 30)] 6 3 (by norm_num)
      (by norm_num) hnk).1 1 5 10 30
    (by decide) (by decide)
    (by norm_num [lookupY, List.find?]) (by norm_num [lookupY, List.find?])
  refine ⟨hnk, h, ?_⟩
  rw [h]
  norm_num

/-! ## Claim C6 — revenue projection formula -/

/-- Claim C6: with horizon `H ≥ 1`, year-0 revenue is
`volume[0] * margin[1]` with no inflation, and for `y` in `1..H`
revenue is `volume[y] * margin[y] * (1+inflation)^(y-1)`, where
`margin` is the densified margin table (so the `(y-1)` exponent applies
uniformly to direct and interpolated margins). -/
theorem revenue_formula (vols : ℕ → ℚ) (margins : List (ℕ × ℚ)) (H : ℕ)
    (infl : ℚ) (hH : 1 ≤ H) :
    calculate_product_revenue vols margins H infl 0 =
      vols 0 * densify (normalizeSched margins H 5) H 1
    ∧ ∀ y, 1 ≤ y → y ≤ H →
        calculate_product_revenue vols margins H infl y =
          vols y * (densify (normalizeSched margins H 5) H y *
            (1 + infl) ^ (y - 1)) := by
  have hne : ¬ H = 0 := by omega
  constructor
  · simp [calculate_product_revenue, hne]
  · intro y hy1 hyH
    have hy : ¬ y = 0 := by omega
    simp [calculate_product_revenue, hy]

/-- Claim C6, witness at a concrete volume series, margin schedule,
horizon and inflation rate. -/
theorem revenue_formula_witness :
    1 ≤ 2 ∧
    (calculate_product_revenue (fun _ => 2) [(1, 3)] 2 (1/10) 0 =
      (fun _ => (2 : ℚ)) 0 * densify (normalizeSched [(1, 3)] 2 5) 2 1) ∧
    (calculate_product_revenue (fun _ => 2) [(1, 3)] 2 (1/10) 2 =
      (fun _ => (2 : ℚ)) 2 * (densify (normalizeSched [(1, 3)] 2 5) 2 2 *
        (1 + 1/10) ^ (2 - 1))) := by
  have h := revenue_formula (fun _ => (2 : ℚ)) [(1, 3)] 2 (1/10) (by norm_num)
  exact ⟨by norm_num, h.1, h.2 2 (by norm_num) (by norm_num)⟩

/-! ## Claim C3 — IRR on vectors without a sign change -/

lemma calculate_irr_eq_none_of_no_sign_change (npIrr : List ℚ → Option ℚ)
    (cfs : List ℚ)
    (h : (∀ cf ∈ cfs, 0 ≤ cf) ∨ (∀ cf ∈ cfs, cf ≤ 0)) :
    calculate_irr npIrr cfs = none := by
  unfold calculate_irr
  rw [if_neg]
  rintro ⟨⟨cf1, h1, hlt1⟩, ⟨cf2, h2, hlt2⟩⟩
  rcases h with hall | hall
  · exact absurd (hall cf1 h1) (not_le.2 hlt1)
  · exact absurd (hall cf2 h2) (not_le.2 hlt2)

/-- Claim C3, counterexample.  On the all-zero run (horizon 0, zero
investment) the cash-flow vector is `[0]`, all entries non-negative;
`calculate_irr` does return the null sentinel, but the projection
result carries the number `0` in its IRR field (financial.py line 155
replaces `None` by `0`), so the result's IRR metric is not the
sentinel. -/
theorem irr_result_number_counterexample :
    (run_scenario npIrrNone dealerZero rawScenarioZero).cash_flows = [0] ∧
    calculate_irr npIrrNone
      (run_scenario npIrrNone dealerZero rawScenarioZero).cash_flows = none ∧
    (run_scenario npIrrNone dealerZero rawScenarioZero).irr = 0 := by
  have hcfs0 : cashFlowsOf dealerZero
      (extractScenario (normalizeScenarioState rawScenarioZero)) = [0] := by
    simp [cashFlowsOf, Scenario.yearsNat, extractScenario,
      normalizeScenarioState, rawScenarioZero, dealerZero]
  have hnone0 : calculate_irr npIrrNone (cashFlowsOf dealerZero
      (extractScenario (normalizeScenarioState rawScenarioZero))) = none := by
    rw [hcfs0]
    exact calculate_irr_eq_none_of_no_sign_change _ _ (Or.inl (by norm_num))
  refine ⟨hcfs0, hnone0, ?_⟩
  show (calculate_metrics npIrrNone (cashFlowsOf dealerZero
      (extractScenario (normalizeScenarioState rawScenarioZero)))
      (extractScenario (normalizeScenarioState rawScenarioZero)).discount_rate
      none).irr = 0
  simp only [calculate_metrics]
  rw [hnone0]

/-- Claim C3, amended: on a cash-flow vector without a sign change the
IRR calculator returns the null sentinel, and the projection result
then carries the number 0 (not the sentinel) as its IRR metric. -/
theorem irr_no_sign_change_result_zero (npIrr : List ℚ → Option ℚ)
    (d : DealerOutlet) (s : Scenario)
    (h : (∀ cf ∈ (runScenarioCore npIrr d s).cash_flows, 0 ≤ cf) ∨
        (∀ cf ∈ (runScenarioCore npIrr d s).cash_flows, cf ≤ 0)) :
    calculate_irr npIrr (runScenarioCore npIrr d s).cash_flows = none ∧
    (runScenarioCore npIrr d s).irr = 0 := by
  have hnone : calculate_irr npIrr (cashFlowsOf d s) = none :=
    calculate_irr_eq_none_of_no_sign_change npIrr _ h
  refine ⟨hnone, ?_⟩
  show (calculate_metrics npIrr (cashFlowsOf d s) s.discount_rate none).irr = 0
  simp only [calculate_metrics]
  rw [hnone]

/-- Claim C3, witness: the zero run has cash flows `[0]`, which is a
no-sign-change vector, and its result IRR is the number 0. -/
theorem irr_no_sign_change_result_zero_witness :
    ((∀ cf ∈ (runScenarioCore npIrrNone dealerZero scenarioZero).cash_flows,
        0 ≤ cf) ∨
      (∀ cf ∈ (runScenarioCore npIrrNone dealerZero scenarioZero).cash_flows,
        cf ≤ 0)) ∧
    (calculate_irr npIrrNone
        (runScenarioCore npIrrNone dealerZero scenarioZero).cash_flows = none ∧
      (runScenarioCore npIrrNone dealerZero scenarioZero).irr = 0) := by
  have hcfs : (runScenarioCore npIrrNone dealerZero scenarioZero).cash_flows
      = [0] := by
    show cashFlowsOf dealerZero scenarioZero = [0]
    simp [cashFlowsOf, Scenario.yearsNat, scenarioZero, dealerZero]
  have hh : (∀ cf ∈ (runScenarioCore npIrrNone dealerZero
        scenarioZero).cash_flows, 0 ≤ cf) ∨
      (∀ cf ∈ (runScenarioCore npIrrNone dealerZero
        scenarioZero).cash_flows, cf ≤ 0) := by
    rw [hcfs]
    exact Or.inl (by norm_num)
  exact ⟨hh, irr_no_sign_change_result_zero npIrrNone dealerZero scenarioZero hh⟩

/-! ## Claim C4 — payback on vectors that never recover -/

lemma cumAt_append_cons (pre : List ℚ) (cf : ℚ) (rest : List ℚ) :
    cumAt (pre ++ cf :: rest) pre.length = pre.sum + cf := by
  induction pre with
  | nil => simp [cumAt]
  | cons p pre' ih =>
    simp only [cumAt, List.cons_append, List.length_cons, List.take_succ_cons,
      List.sum_cons] at ih ⊢
    rw [ih]
    ring

lemma paybackGo_none_of_all_neg (rest : List ℚ) : ∀ pre : List ℚ,
    (∀ k, k < (pre ++ rest).length → cumAt (pre ++ rest) k < 0) →
    paybackGo rest pre.sum pre.length = none := by
  induction rest with
  | nil => intro pre _; rfl
  | cons cf rest' ih =>
    intro pre h
    have hneg : pre.sum + cf < 0 := by
      have hlen : pre.length < (pre ++ cf :: rest').length := by simp
      have := h pre.length hlen
      rwa [cumAt_append_cons] at this
    simp only [paybackGo, if_neg (not_le.2 hneg)]
    have heq : (pre ++ [cf]) ++ rest' = pre ++ cf :: rest' := by simp
    have h2 := ih (pre ++ [cf]) (by rw [heq]; exact h)
    simpa using h2

/-- Claim C4, counterexample.  On the run with a unit investment and
horizon 0 the cash-flow vector is `[-1]`, whose cumulative sum never
reaches 0; `calculate_payback_period` does return the null sentinel,
but the projection result carries the number `len(cash_flows) = 1` in
its payback field (financial.py lines 159-160), not the sentinel. -/
theorem payback_result_number_counterexample :
    (run_scenario npIrrNone dealerOne rawScenarioZero).cash_flows = [-1] ∧
    calculate_payback_period
      (run_scenario npIrrNone dealerOne rawScenarioZero).cash_flows = none ∧
    (run_scenario npIrrNone dealerOne rawScenarioZero).payback_period = 1 := by
  have hcfs0 : cashFlowsOf dealerOne
      (extractScenario (normalizeScenarioState rawScenarioZero)) = [-1] := by
    simp [cashFlowsOf, Scenario.yearsNat, extractScenario,
      normalizeScenarioState, rawScenarioZero, dealerOne, dealerZero]
  have hnone0 : calculate_payback_period (cashFlowsOf dealerOne
      (extractScenario (normalizeScenarioState rawScenarioZero))) = none := by
    rw [hcfs0]
    norm_num [calculate_payback_period, paybackGo]
  refine ⟨hcfs0, hnone0, ?_⟩
  show (calculate_metrics npIrrNone (cashFlowsOf dealerOne
      (extractScenario (normalizeScenarioState rawScenarioZero)))
      (extractScenario (normalizeScenarioState rawScenarioZero)).discount_rate
      none).payback = 1
  simp only [calculate_metrics]
  rw [hnone0, hcfs0]
  norm_num

/-- Claim C4, amended: when the running cumulative sum of the run's
cash-flow vector stays negative at every index, the payback calculator
returns the null sentinel, and the projection result then carries the
number `len(cash_flows)` (the horizon plus one), not the sentinel. -/
theorem payback_never_recovers_result_length (npIrr : List ℚ → Option ℚ)
    (d : DealerOutlet) (s : Scenario)
    (h : ∀ k, k < (runScenarioCore npIrr d s).cash_flows.length →
        cumAt (runScenarioCore npIrr d s).cash_flows k < 0) :
    calculate_payback_period (runScenarioCore npIrr d s).cash_flows = none ∧
    (runScenarioCore npIrr d s).payback_period =
      ((runScenarioCore npIrr d s).cash_flows.length : ℚ) := by
  have hnone : calculate_payback_period (cashFlowsOf d s) = none := by
    have h0 : ∀ k, k < (([] : List ℚ) ++ cashFlowsOf d s).length →
        cumAt (([] : List ℚ) ++ cashFlowsOf d s) k < 0 := by
      simpa using h
    have := paybackGo_none_of_all_neg (cashFlowsOf d s) [] h0
    simpa [calculate_payback_period] using this
  refine ⟨hnone, ?_⟩
  show (calculate_metrics npIrr (cashFlowsOf d s) s.discount_rate none).payback
    = ((cashFlowsOf d s).length : ℚ)
  simp only [calculate_metrics]
  rw [hnone]

/-- Claim C4, witness: the unit-investment, horizon-0 run has cash
flows `[-1]`, which never recover, and the result payback field is 1. -/
theorem payback_never_recovers_result_length_witness :
    (∀ k, k < (runScenarioCore npIrrNone dealerOne scenarioZero).cash_flows.length →
        cumAt (runScenarioCore npIrrNone dealerOne scenarioZero).cash_flows k < 0) ∧
    (calculate_payback_period
        (runScenarioCore npIrrNone dealerOne scenarioZero).cash_flows = none ∧
      (runScenarioCore npIrrNone dealerOne scenarioZero).payback_period =
        ((runScenarioCore npIrrNone dealerOne scenarioZero).cash_flows.length : ℚ)) := by
  have hcfs : (runScenarioCore npIrrNone dealerOne scenarioZero).cash_flows
      = [-1] := by
    show cashFlowsOf dealerOne scenarioZero = [-1]
    simp [cashFlowsOf, Scenario.yearsNat, scenarioZero, dealerOne, dealerZero]
  have hh : ∀ k, k < (runScenarioCore npIrrNone dealerOne
        scenarioZero).cash_flows.length →
      cumAt (runScenarioCore npIrrNone dealerOne scenarioZero).cash_flows k < 0 := by
    rw [hcfs]
    intro k hk
    have hk0 : k = 0 := by simpa using hk
    subst hk0
    norm_num [cumAt]
  exact ⟨hh, payback_never_recovers_result_length npIrrNone dealerOne
    scenarioZero hh⟩

/-! ## Claim C2 — input validation at the entry point -/

/-- Claim C2, counterexample.  `run_scenario` contains no validation:
on a scenario with integer horizon 0 (smaller than 1) and a dealer with
negative base volume and negative initial investment, it raises no
`InvalidScenario`/`InvalidSubject` error (no such error kinds exist in
the source) and returns a normal projection result with cash-flow
vector `[5]` and horizon 0. -/
theorem run_scenario_accepts_invalid_counterexample :
    (run_scenario npIrrNone dealerNeg rawScenarioZero).cash_flows = [5] ∧
    (run_scenario npIrrNone dealerNeg rawScenarioZero).years = 0 ∧
    (run_scenario npIrrNone dealerNeg rawScenarioZero).initial_investment
      = -5 := by
  refine ⟨?_, ?_, ?_⟩
  · show cashFlowsOf dealerNeg
      (extractScenario (normalizeScenarioState rawScenarioZero)) = [5]
    simp [cashFlowsOf, Scenario.yearsNat, extractScenario,
      normalizeScenarioState, rawScenarioZero, dealerNeg, dealerZero]
  · show (extractScenario (normalizeScenarioState rawScenarioZero)).analysis_years
      = 0
    simp [extractScenario, normalizeScenarioState, rawScenarioZero]
  · rfl

/-- Claim C2, amended: `run_scenario` performs no horizon or sign
validation — a horizon smaller than 1 or negative volumes or
investment are accepted, not rejected with `InvalidScenario` /
`InvalidSubject` (no such error kinds exist in the source).  For every
dealer and raw scenario whose numeric parameters avoid the source's
division-by-zero crashes (nonzero signage maintenance period, discount
and inflation rates other than −100% — on those the source dies with
an uncaught `ZeroDivisionError`, still not the claimed validation
errors), it produces a projection result whose cash-flow vector has
`max(horizon, 0) + 1` entries and starts with the negated initial
investment. -/
theorem run_scenario_no_validation (npIrr : List ℚ → Option ℚ)
    (d : DealerOutlet) (s : ScenarioIn)
    (hsm : s.signage_maintenance_year ≠ 0)
    (hdr : s.discount_rate ≠ -1)
    (hinfl : s.inflation_rate ≠ -1) :
    (run_scenario npIrr d s).cash_flows.length =
      (extractScenario (normalizeScenarioState s)).yearsNat + 1 ∧
    (run_scenario npIrr d s).cash_flows.head? =
      some (-d.initial_investment) := by
  constructor
  · show (cashFlowsOf d (extractScenario (normalizeScenarioState s))).length = _
    simp [cashFlowsOf]
  · rfl

/-- Claim C2, witness: the horizon-0 scenario with negative volume and
investment has a signage period of 7 and rates far from −100%, and the
produced result has one cash-flow entry starting at `-(-5)`. -/
theorem run_scenario_no_validation_witness :
    (rawScenarioZero.signage_maintenance_year ≠ 0 ∧
      rawScenarioZero.discount_rate ≠ -1 ∧
      rawScenarioZero.inflation_rate ≠ -1) ∧
    ((run_scenario npIrrNone dealerNeg rawScenarioZero).cash_flows.length =
        (extractScenario (normalizeScenarioState rawScenarioZero)).yearsNat + 1 ∧
      (run_scenario npIrrNone dealerNeg rawScenarioZero).cash_flows.head? =
        some (-dealerNeg.initial_investment)) := by
  have h1 : rawScenarioZero.signage_maintenance_year ≠ 0 := by
    norm_num [rawScenarioZero]
  have h2 : rawScenarioZero.discount_rate ≠ -1 := by
    norm_num [rawScenarioZero]
  have h3 : rawScenarioZero.inflation_rate ≠ -1 := by
    norm_num [rawScenarioZero]
  exact ⟨⟨h1, h2, h3⟩,
    run_scenario_no_validation npIrrNone dealerNeg rawScenarioZero h1 h2 h3⟩

/-! ## Claim C10 — `run_scenario` mutates the scenario object -/

/-- Claim C10: the normalization phase of `run_scenario` rewrites the
passed-in scenario object in place — a scalar growth entry becomes the
mapping `{1: value}`, a missing per-product margin entry is inserted
with its default, and a non-integer `analysis_years` is reset to 15 —
so in each case the caller's scenario object differs after the call. -/
theorem run_scenario_mutates_scenario :
    (normalizeScenarioState rawScenarioScalarGrowth ≠ rawScenarioScalarGrowth ∧
      (normalizeScenarioState rawScenarioScalarGrowth).default_growth_rates
        Product.pmg = some (SchedField.table [(1, 7/100)])) ∧
    (normalizeScenarioState rawScenarioMissingMargin ≠ rawScenarioMissingMargin ∧
      (normalizeScenarioState rawScenarioMissingMargin).default_margins
        Product.lube = some (SchedField.table [(1, 100)])) ∧
    (normalizeScenarioState rawScenarioNonIntYears ≠ rawScenarioNonIntYears ∧
      (normalizeScenarioState rawScenarioNonIntYears).analysis_years
        = YearsField.intVal 15) := by
  refine ⟨⟨?_, ?_⟩, ⟨?_, ?_⟩, ⟨?_, ?_⟩⟩
  · intro h
    have := congrArg (fun t => t.default_growth_rates Product.pmg) h
    simp [normalizeScenarioState, rawScenarioScalarGrowth,
      normalizeGrowthField] at this
  · simp [normalizeScenarioState, rawScenarioScalarGrowth,
      normalizeGrowthField]
  · intro h
    have := congrArg (fun t => t.default_margins Product.lube) h
    simp [normalizeScenarioState, rawScenarioMissingMargin,
      normalizeMarginField] at this
  · simp [normalizeScenarioState, rawScenarioMissingMargin,
      normalizeMarginField, defaultMargin]
  · intro h
    have := congrArg (fun t => t.analysis_years) h
    simp [normalizeScenarioState, rawScenarioNonIntYears,
      rawScenarioZero] at this
  · simp [normalizeScenarioState, rawScenarioNonIntYears, rawScenarioZero]

/-! ## Claim C1 — cash-flow assembly -/

/-- Claim C1: in every projection run the assembled cash-flow vector
has entry 0 equal to the negated initial investment, and for every year
`y` in `1..horizon` entry `y` equals `pretax - tax` where `pretax` is
total revenue minus operating cost, maintenance and insurance plus
rental income, and `tax = max(0, pretax) * taxRate`; in particular a
negative pre-tax flow passes through untaxed. -/
theorem cash_flow_assembly (npIrr : List ℚ → Option ℚ) (d : DealerOutlet)
    (s : Scenario) (y : ℕ) (hy1 : 1 ≤ y) (hyH : y ≤ s.yearsNat) :
    (runScenarioCore npIrr d s).cash_flows[0]? =
      some (-d.initial_investment) ∧
    (runScenarioCore npIrr d s).cash_flows[y]? =
      some (pretaxAt d s y - max 0 (pretaxAt d s y) * s.tax_rate) ∧
    (pretaxAt d s y < 0 →
      (runScenarioCore npIrr d s).cash_flows[y]? = some (pretaxAt d s y)) := by
  have hcfs : (runScenarioCore npIrr d s).cash_flows = cashFlowsOf d s := rfl
  obtain ⟨k, rfl⟩ : ∃ k, y = k + 1 := ⟨y - 1, by omega⟩
  have hk : k < s.yearsNat := by omega
  have hidx : (cashFlowsOf d s)[k + 1]? = some (netCashFlowAt d s (k + 1)) := by
    simp [cashFlowsOf, hk]
  refine ⟨?_, ?_, ?_⟩
  · rw [hcfs]
    simp [cashFlowsOf]
  · rw [hcfs, hidx]
    rfl
  · intro hneg
    rw [hcfs, hidx]
    have hmax : max 0 (pretaxAt d s (k + 1)) = 0 := max_eq_left hneg.le
    simp [netCashFlowAt, hmax]

/-- Claim C1, witness: the unit-investment dealer with horizon 1, at
year 1. -/
theorem cash_flow_assembly_witness :
    1 ≤ 1 ∧ 1 ≤ scenarioOne.yearsNat ∧
    ((runScenarioCore npIrrNone dealerOne scenarioOne).cash_flows[0]? =
        some (-dealerOne.initial_investment) ∧
      (runScenarioCore npIrrNone dealerOne scenarioOne).cash_flows[1]? =
        some (pretaxAt dealerOne scenarioOne 1 -
          max 0 (pretaxAt dealerOne scenarioOne 1) * scenarioOne.tax_rate) ∧
      (pretaxAt dealerOne scenarioOne 1 < 0 →
        (runScenarioCore npIrrNone dealerOne scenarioOne).cash_flows[1]? =
          some (pretaxAt dealerOne scenarioOne 1))) := by
  have hys : 1 ≤ scenarioOne.yearsNat := by
    norm_num [scenarioOne, scenarioZero, Scenario.yearsNat]
  exact ⟨le_refl 1, hys,
    cash_flow_assembly npIrrNone dealerOne scenarioOne 1 (le_refl 1) hys⟩

/-! ## Claim C7 — MIRR -/

lemma sum_map_max_eq_sum_filter_pos (cfs : List ℚ) :
    (cfs.map (fun cf => max 0 cf)).sum = (cfs.filter (fun cf => 0 < cf)).sum := by
  induction cfs with
  | nil => rfl
  | cons cf rest ih =>
    simp only [List.map_cons, List.sum_cons, List.filter_cons]
    rcases le_or_lt cf 0 with h | h
    · rw [max_eq_left h, if_neg (by simpa using not_lt.2 h)]
      simpa using ih
    · rw [max_eq_right h.le, if_pos (by simpa using h)]
      simp [ih]

lemma sum_map_min_eq_sum_filter_neg (cfs : List ℚ) :
    (cfs.map (fun cf => min 0 cf)).sum = (cfs.filter (fun cf => cf < 0)).sum := by
  induction cfs with
  | nil => rfl
  | cons cf rest ih =>
    simp only [List.map_cons, List.sum_cons, List.filter_cons]
    rcases le_or_lt cf 0 with h | h
    · rcases lt_or_eq_of_le h with h' | h'
      · rw [min_eq_right h, if_pos (by simpa using h')]
        simp [ih]
      · rw [min_eq_right h, if_neg (by simp [h'])]
        simpa [h'] using ih
    · rw [min_eq_left h.le, if_neg (by simpa using not_lt.2 h.le)]
      simpa using ih

lemma terminalValue_eq_spec (rr : ℚ) (n : ℕ) : ∀ (cfs : List ℚ) (t : ℕ),
    terminalValue cfs rr n t = specTerminalValue cfs rr n t := by
  intro cfs
  induction cfs with
  | nil => intro t; rfl
  | cons cf rest ih =>
    intro t
    simp only [terminalValue, specTerminalValue, ih]
    rcases lt_trichotomy cf 0 with h | h | h
    · rw [if_neg (not_lt.2 h.le), if_neg (not_le.2 h)]
    · subst h
      simp
    · rw [if_pos h, if_pos h.le]

lemma pvNegative_eq_spec (dr : ℚ) : ∀ (cfs : List ℚ) (t : ℕ),
    pvNegative cfs dr t = specPresentValue cfs dr t := by
  intro cfs
  induction cfs with
  | nil => intro t; rfl
  | cons cf rest ih =>
    intro t
    simp only [pvNegative, specPresentValue, ih]
    rcases lt_trichotomy cf 0 with h | h | h
    · rw [if_pos h, if_pos h.le]
    · subst h
      simp
    · rw [if_neg (not_lt.2 h.le), if_neg (not_le.2 h)]

lemma terminalValue_nonneg (rr : ℚ) (n : ℕ) (h1 : 0 < 1 + rr) :
    ∀ (cfs : List ℚ) (t : ℕ), 0 ≤ terminalValue cfs rr n t := by
  intro cfs
  induction cfs with
  | nil => intro t; exact le_refl 0
  | cons cf rest ih =>
    intro t
    simp only [terminalValue]
    have hterm : 0 ≤ if 0 < cf then cf * (1 + rr) ^ (n - 1 - t) else 0 := by
      split_ifs with h
      · exact mul_nonneg h.le (pow_pos h1 _).le
      · exact le_refl 0
    exact add_nonneg hterm (ih (t + 1))

lemma terminalValue_pos (rr : ℚ) (n : ℕ) (h1 : 0 < 1 + rr) :
    ∀ (cfs : List ℚ) (t : ℕ), (∃ cf ∈ cfs, 0 < cf) →
      0 < terminalValue cfs rr n t := by
  intro cfs
  induction cfs with
  | nil => intro t h; simp at h
  | cons cf rest ih =>
    intro t h
    simp only [terminalValue]
    rcases h with ⟨cf', hmem, hpos⟩
    rcases List.mem_cons.1 hmem with rfl | hmem'
    · have hterm : 0 < cf' * (1 + rr) ^ (n - 1 - t) :=
        mul_pos hpos (pow_pos h1 _)
      rw [if_pos hpos]
      exact add_pos_of_pos_of_nonneg hterm (terminalValue_nonneg rr n h1 rest (t + 1))
    · have hterm : 0 ≤ if 0 < cf then cf * (1 + rr) ^ (n - 1 - t) else 0 := by
        split_ifs with h
        · exact mul_nonneg h.le (pow_pos h1 _).le
        · exact le_refl 0
      exact add_pos_of_nonneg_of_pos hterm (ih (t + 1) ⟨cf', hmem', hpos⟩)

lemma pvNegative_nonneg (dr : ℚ) (h1 : 0 < 1 + dr) :
    ∀ (cfs : List ℚ) (t : ℕ), 0 ≤ pvNegative cfs dr t := by
  intro cfs
  induction cfs with
  | nil => intro t; exact le_refl 0
  | cons cf rest ih =>
    intro t
    simp only [pvNegative]
    have hterm : 0 ≤ if cf < 0 then |cf| / (1 + dr) ^ t else 0 := by
      split_ifs with h
      · exact div_nonneg (abs_nonneg cf) (pow_pos h1 _).le
      · exact le_refl 0
    exact add_nonneg hterm (ih (t + 1))

lemma pvNegative_pos (dr : ℚ) (h1 : 0 < 1 + dr) :
    ∀ (cfs : List ℚ) (t : ℕ), (∃ cf ∈ cfs, cf < 0) →
      0 < pvNegative cfs dr t := by
  intro cfs
  induction cfs with
  | nil => intro t h; simp at h
  | cons cf rest ih =>
    intro t h
    simp only [pvNegative]
    rcases h with ⟨cf', hmem, hneg⟩
    rcases List.mem_cons.1 hmem with rfl | hmem'
    · have hterm : 0 < |cf'| / (1 + dr) ^ t :=
        div_pos (abs_pos.2 hneg.ne) (pow_pos h1 _)
      rw [if_pos hneg]
      exact add_pos_of_pos_of_nonneg hterm (pvNegative_nonneg dr h1 rest (t + 1))
    · have hterm : 0 ≤ if cf < 0 then |cf| / (1 + dr) ^ t else 0 := by
        split_ifs with h
        · exact div_nonneg (abs_nonneg cf) (pow_pos h1 _).le
        · exact le_refl 0
      exact add_pos_of_nonneg_of_pos hterm (ih (t + 1) ⟨cf', hmem', hneg⟩)

lemma exists_pos_of_filter_sum_ne (cfs : List ℚ)
    (h : (cfs.filter (fun cf => 0 < cf)).sum ≠ 0) : ∃ cf ∈ cfs, 0 < cf := by
  by_contra hno
  push_neg at hno
  have : cfs.filter (fun cf => 0 < cf) = [] :=
    List.filter_eq_nil_iff.2 (fun cf hcf => by simpa using hno cf hcf)
  rw [this] at h
  exact h rfl

lemma exists_neg_of_filter_sum_ne (cfs : List ℚ)
    (h : (cfs.filter (fun cf => cf < 0)).sum ≠ 0) : ∃ cf ∈ cfs, cf < 0 := by
  by_contra hno
  push_neg at hno
  have : cfs.filter (fun cf => cf < 0) = [] :=
    List.filter_eq_nil_iff.2 (fun cf hcf => by simpa using hno cf hcf)
  rw [this] at h
  exact h rfl

lemma two_le_length_of_mem_ne {α : Type} {a b : α} {l : List α}
    (ha : a ∈ l) (hb : b ∈ l) (hne : a ≠ b) : 2 ≤ l.length := by
  match l with
  | [] => simp at ha
  | [x] =>
    simp at ha hb
    exact absurd (ha.trans hb.symm) hne
  | x :: y :: rest => simp [List.length]

/-- Claim C7: MIRR equals the terminal value of the non-negative
entries compounded to the final year at the reinvestment rate (which
defaults to the discount rate), divided by the present value of the
magnitudes of the non-positive entries at the discount rate, raised to
`1/horizon`, minus 1 — and equals 0 whenever the positive-entry sum or
the negative-entry sum is zero.  Stated for rates above −100% (the
spec's rate domain). -/
theorem mirr_formula (cfs : List ℚ) (dr : ℚ) (rrOpt : Option ℚ)
    (hdr : -1 < dr) (hrr : -1 < rrOpt.getD dr) :
    mirrCalc cfs dr rrOpt =
      if (cfs.filter (fun cf => 0 < cf)).sum = 0 ∨
          (cfs.filter (fun cf => cf < 0)).sum = 0 then 0
      else
        Real.rpow
          ((specTerminalValue cfs (rrOpt.getD dr) cfs.length 0 : ℝ) /
            (specPresentValue cfs dr 0 : ℝ))
          (((cfs.length - 1 : ℕ) : ℝ)⁻¹) - 1 := by
  have hrr1 : 0 < 1 + rrOpt.getD dr := by linarith
  have hdr1 : 0 < 1 + dr := by linarith
  simp only [mirrCalc, sum_map_max_eq_sum_filter_pos, sum_map_min_eq_sum_filter_neg]
  by_cases hc : (cfs.filter (fun cf => 0 < cf)).sum = 0 ∨
      (cfs.filter (fun cf => cf < 0)).sum = 0
  · rw [if_pos hc, if_pos hc]
  · rw [if_neg hc, if_neg hc]
    push_neg at hc
    obtain ⟨cfp, hmemp, hcfp⟩ := exists_pos_of_filter_sum_ne cfs hc.1
    obtain ⟨cfn, hmemn, hcfn⟩ := exists_neg_of_filter_sum_ne cfs hc.2
    have htv : 0 < terminalValue cfs (rrOpt.getD dr) cfs.length 0 :=
      terminalValue_pos _ _ hrr1 cfs 0 ⟨cfp, hmemp, hcfp⟩
    have hpv : 0 < pvNegative cfs dr 0 :=
      pvNegative_pos _ hdr1 cfs 0 ⟨cfn, hmemn, hcfn⟩
    rw [if_pos ⟨htv, hpv⟩]
    have hlen : 2 ≤ cfs.length :=
      two_le_length_of_mem_ne hmemp hmemn (by intro h; rw [h] at hcfp; linarith)
    have hcast : ((cfs.length : ℝ) - 1) = ((cfs.length - 1 : ℕ) : ℝ) := by
      push_cast [Nat.cast_sub (by omega : 1 ≤ cfs.length)]
      ring
    rw [terminalValue_eq_spec, pvNegative_eq_spec, hcast]

/-- Claim C7, witness at the vector `[-1, 2]` with discount rate 10%
and no explicit reinvestment rate. -/
theorem mirr_formula_witness :
    (-1 < (1/10 : ℚ)) ∧ (-1 < (none : Option ℚ).getD (1/10)) ∧
    mirrCalc [-1, 2] (1/10) none =
      (if (([-1, 2] : List ℚ).filter (fun cf => 0 < cf)).sum = 0 ∨
          (([-1, 2] : List ℚ).filter (fun cf => cf < 0)).sum = 0 then 0
      else
        Real.rpow
          ((specTerminalValue [-1, 2] ((none : Option ℚ).getD (1/10))
              ([-1, 2] : List ℚ).length 0 : ℝ) /
            (specPresentValue [-1, 2] (1/10) 0 : ℝ))
          (((([-1, 2] : List ℚ).length - 1 : ℕ) : ℝ)⁻¹) - 1) := by
  exact ⟨by norm_num, by norm_num,
    mirr_formula [-1, 2] (1/10) none (by norm_num) (by norm_num)⟩

/-! ## Claim C9 — payback bracketing -/

lemma cumAt_append_left (pre rest : List ℚ) (hp : 0 < pre.length) :
    cumAt (pre ++ rest) (pre.length - 1) = pre.sum := by
  unfold cumAt
  have h1 : pre.length - 1 + 1 = pre.length := by omega
  rw [h1, List.take_left]

lemma paybackGo_bracketing (rest : List ℚ) : ∀ (pre : List ℚ) (p : ℚ),
    (∀ k, k < pre.length → cumAt (pre ++ rest) k < 0) →
    paybackGo rest pre.sum pre.length = some p →
    (⌊p⌋ : ℚ) ≠ p →
    cumAt (pre ++ rest) (⌊p⌋.toNat) < 0 ∧
      0 ≤ cumAt (pre ++ rest) (⌈p⌉.toNat) := by
  induction rest with
  | nil =>
    intro pre p _ hgo _
    simp [paybackGo] at hgo
  | cons cf rest' ih =>
    intro pre p hcum hgo hfrac
    simp only [paybackGo] at hgo
    by_cases hge : 0 ≤ pre.sum + cf
    · rw [if_pos hge] at hgo
      by_cases hcond : 0 < pre.length ∧ cf ≠ 0
      · rw [if_pos hcond] at hgo
        have hp := Option.some.inj hgo
        have hsimp : pre.sum + cf - cf = pre.sum := by ring
        rw [hsimp] at hp
        have hipos : 0 < pre.length := hcond.1
        have hpre_neg : pre.sum < 0 := by
          have hk := hcum (pre.length - 1) (by omega)
          rwa [cumAt_append_left pre (cf :: rest') hipos] at hk
        have hcf_pos : 0 < cf := by linarith
        have hf0 : 0 < (0 - pre.sum) / cf := div_pos (by linarith) hcf_pos
        have hf1 : (0 - pre.sum) / cf ≤ 1 :=
          (div_le_one hcf_pos).2 (by linarith)
        set x : ℚ := (pre.length : ℚ) - 1 + (0 - pre.sum) / cf with hxdef
        have hx_lb : (pre.length : ℚ) - 1 < x := by
          rw [hxdef]; linarith
        have hx_ub : x ≤ (pre.length : ℚ) := by
          rw [hxdef]; linarith
        have hp_lb : x - 1/200 ≤ p := hp ▸ round2_ge x
        have hp_ub : p ≤ x + 1/200 := hp ▸ round2_le x
        have hm : p = (roundHalfEven (x * 100) : ℚ) / 100 := hp.symm
        set m : ℤ := roundHalfEven (x * 100) with hmdef
        have hm100 : (m : ℚ) = p * 100 := by
          rw [hm]; field_simp
        have hub : m ≤ 100 * (pre.length : ℤ) := by
          have h2 : (2 * m : ℚ) ≤ 200 * (pre.length : ℚ) + 1 := by
            nlinarith [hp_ub, hx_ub, hm100]
          have h3 : (2 * m : ℤ) ≤ 200 * (pre.length : ℤ) + 1 := by
            exact_mod_cast h2
          omega
        have hlb : 100 * ((pre.length : ℤ) - 1) ≤ m := by
          have h2 : 200 * (pre.length : ℚ) - 200 - 1 ≤ (2 * m : ℚ) := by
            nlinarith [hp_lb, hx_lb, hm100]
          have h3 : 200 * (pre.length : ℤ) - 200 - 1 ≤ (2 * m : ℤ) := by
            exact_mod_cast h2
          omega
        have hp_le : p ≤ (pre.length : ℚ) := by
          have : (m : ℚ) ≤ 100 * (pre.length : ℚ) := by exact_mod_cast hub
          linarith [hm100]
        have hp_ge : (pre.length : ℚ) - 1 ≤ p := by
          have : 100 * ((pre.length : ℚ) - 1) ≤ (m : ℚ) := by
            exact_mod_cast hlb
          linarith [hm100]
        have hp_ne_top : p ≠ (pre.length : ℚ) := by
          intro habs
          apply hfrac
          rw [habs]
          rw [show ((pre.length : ℚ)) = ((pre.length : ℤ) : ℚ) by push_cast; ring]
          rw [Int.floor_intCast]
        have hp_ne_bot : p ≠ (pre.length : ℚ) - 1 := by
          intro habs
          apply hfrac
          rw [habs]
          rw [show ((pre.length : ℚ) - 1) = (((pre.length : ℤ) - 1 : ℤ) : ℚ) by
            push_cast; ring]
          rw [Int.floor_intCast]
        have hp_lt : p < (pre.length : ℚ) := lt_of_le_of_ne hp_le hp_ne_top
        have hp_gt : (pre.length : ℚ) - 1 < p :=
          lt_of_le_of_ne hp_ge (Ne.symm hp_ne_bot)
        have hfloor : ⌊p⌋ = (pre.length : ℤ) - 1 := by
          rw [Int.floor_eq_iff]
          constructor
          · push_cast
            linarith
          · push_cast
            linarith
        have hceil : ⌈p⌉ = (pre.length : ℤ) := by
          rw [Int.ceil_eq_iff]
          constructor
          · push_cast
            linarith
          · push_cast
            linarith
        have hfl_toNat : (⌊p⌋).toNat = pre.length - 1 := by
          rw [hfloor]; omega
        have hcl_toNat : (⌈p⌉).toNat = pre.length := by
          rw [hceil]; omega
        constructor
        · rw [hfl_toNat]
          exact hcum (pre.length - 1) (by omega)
        · rw [hcl_toNat, cumAt_append_cons]
          exact hge
      · rw [if_neg hcond] at hgo
        have hp := Option.some.inj hgo
        exfalso
        apply hfrac
        rw [← hp, Int.floor_natCast]
        push_cast
        ring
    · rw [if_neg hge] at hgo
      have heq : (pre ++ [cf]) ++ rest' = pre ++ cf :: rest' := by simp
      have hcum' : ∀ k, k < (pre ++ [cf]).length →
          cumAt ((pre ++ [cf]) ++ rest') k < 0 := by
        intro k hk
        rw [heq]
        simp only [List.length_append, List.length_cons, List.length_nil] at hk
        rcases Nat.lt_or_ge k pre.length with hk' | hk'
        · exact hcum k hk'
        · have hkk : k = pre.length := by omega
          subst hkk
          rw [cumAt_append_cons]
          linarith [not_le.1 hge]
      have hgo' : paybackGo rest' (pre ++ [cf]).sum (pre ++ [cf]).length
          = some p := by
        simpa using hgo
      have hres := ih (pre ++ [cf]) p hcum' hgo' hfrac
      rwa [heq] at hres

/-- Claim C9, counterexample.  The all-positive one-entry vector `[1]`
has a defined payback period of 0 (financial.py line 77 returns the
index as soon as the cumulative sum is non-negative), but the
cumulative cash flow at `floor(0) = 0` is `1`, which is not negative. -/
theorem payback_bracketing_counterexample :
    calculate_payback_period [(1 : ℚ)] = some 0 ∧
    ¬ cumAt [(1 : ℚ)] (⌊(0 : ℚ)⌋.toNat) < 0 := by
  constructor
  · norm_num [calculate_payback_period, paybackGo]
  · norm_num [cumAt]

/-- Claim C9, amended: for every cash-flow vector whose payback period
is defined and is NOT a whole number, the cumulative undiscounted cash
flow at `floor(payback)` is negative and at `ceil(payback)` is
non-negative.  (At whole-number paybacks — a crossing landing exactly
on 0, a first entry already non-negative, or a fraction rounded to an
integer — the payback sits on the boundary and the floor-side strict
negativity can fail, as the counterexample shows.) -/
theorem payback_bracketing (cfs : List ℚ) (p : ℚ)
    (hp : calculate_payback_period cfs = some p)
    (hfrac : (⌊p⌋ : ℚ) ≠ p) :
    cumAt cfs (⌊p⌋.toNat) < 0 ∧ 0 ≤ cumAt cfs (⌈p⌉.toNat) := by
  have hcum0 : ∀ k, k < ([] : List ℚ).length →
      cumAt (([] : List ℚ) ++ cfs) k < 0 := by
    intro k hk
    simp at hk
  have hgo : paybackGo cfs (([] : List ℚ)).sum (([] : List ℚ)).length
      = some p := by
    simpa [calculate_payback_period] using hp
  have h := paybackGo_bracketing cfs [] p hcum0 hgo hfrac
  simpa using h

/-- Claim C9, witness: the vector `[-10, 4, 8]` has payback `1.75`;
the cumulative flow at index 1 is `-6 < 0` and at index 2 is `2 ≥ 0`. -/
theorem payback_bracketing_witness :
    calculate_payback_period [-10, 4, 8] = some (7/4) ∧
    (⌊(7/4 : ℚ)⌋ : ℚ) ≠ 7/4 ∧
    (cumAt [-10, 4, 8] (⌊(7/4 : ℚ)⌋.toNat) < 0 ∧
      0 ≤ cumAt [-10, 4, 8] (⌈(7/4 : ℚ)⌉.toNat)) := by
  have h1 : calculate_payback_period [-10, 4, 8] = some (7/4) := by
    norm_num [calculate_payback_period, paybackGo, round2, roundHalfEven]
  have hfl : ⌊(7/4 : ℚ)⌋ = 1 := by
    rw [Int.floor_eq_iff] <;> norm_num
  have h2 : (⌊(7/4 : ℚ)⌋ : ℚ) ≠ 7/4 := by
    rw [hfl]; norm_num
  exact ⟨h1, h2, payback_bracketing [-10, 4, 8] (7/4) h1 h2⟩

end DFProto
